import Mathlib

/-!
Verification of the RouterOS API client core (`lib/client.js`).

The development shallowly embeds the protocol engine of the source:

* the varint length codec (`_writeLength` / `_readLength`),
* the word framer (`_encodeWord`, `_sendCommand`),
* the streaming sentence assembler (`_parseResponse`) as a state
  transformer over the receive buffer,
* the reply decoder and dispatcher (`_processCompleteResponse`),
* the login handshake (`_login`), the guarded `send`, the constructor
  defaults and the socket `error` / `close` handlers.

JavaScript numbers under the bitwise operators behave as 32-bit signed
integers; on the ranges exercised by the protocol (word lengths below
2^31) those operators coincide with the unbounded `Nat` operators
`&&&`, `|||`, `<<<`, `>>>` used here, which is why the varint theorems
carry an explicit `< 2 ^ 31` ceiling.  Byte buffers are `List Nat`
(each element a byte value), JavaScript strings are Lean `String`s,
and JavaScript objects built by `item[key] = value` are insertion-order
association lists with in-place overwrite, matching object key order.
-/

namespace RosClient

/-! ### Varint codec: `_writeLength` (client.js lines 256-272) -/

/-- `_writeLength(length)`: emit 7 bits per byte, low-order first,
with the continuation bit `0x80` on every byte except the last.
Mirrors `byte = length & 0x7f; length = length >> 7;
if (length === 0) push(byte) else push(byte | 0x80)`. -/
def writeLength (n : Nat) : List Nat :=
  let byte := n &&& 127
  let rest := n >>> 7
  if rest = 0 then [byte] else (byte ||| 128) :: writeLength rest
termination_by n
decreasing_by
  have h2 : n >>> 7 = n / 2 ^ 7 := Nat.shiftRight_eq_div_pow n 7
  have : n / 2 ^ 7 ≠ 0 := by
    simpa [h2] using (by assumption : ¬ n >>> 7 = 0)
  have hn : 0 < n := by
    rcases Nat.eq_zero_or_pos n with h | h
    · subst h; simp at this
    · exact h
  calc n >>> 7 = n / 2 ^ 7 := h2
    _ < n := Nat.div_lt_self hn (by norm_num)

/-! ### Varint codec: `_readLength` (client.js lines 235-254) -/

/-- The decoding loop of `_readLength`: walk the buffer accumulating
`length |= (byte & 0x7f) << shift`, stopping at the first byte whose
continuation bit `0x80` is clear.  Returns the decoded value together
with the number of bytes consumed (`idx` in the source), or `none`
when the buffer is exhausted before a terminating byte (the source
returns `null` without mutating the buffer). -/
def readLengthAux : List Nat → Nat → Nat → Option (Nat × Nat)
  | [], _, _ => none
  | b :: rest, acc, shift =>
    let acc' := acc ||| ((b &&& 127) <<< shift)
    if b &&& 128 = 0 then some (acc', 1)
    else (readLengthAux rest acc' (shift + 7)).map (fun vk => (vk.1, vk.2 + 1))

/-- `_readLength()`: decode a varint from the front of the buffer;
`none` is the source's `null` (need more data, nothing consumed). -/
def readLength (buf : List Nat) : Option (Nat × Nat) :=
  readLengthAux buf 0 0

/-- Key bit-algebra fact: when `a < 2 ^ s`, or-ing `b <<< s` into `a`
is plain addition of `b * 2 ^ s` (the bit ranges are disjoint). -/
theorem lor_shiftLeft_eq_add (a b s : Nat) (h : a < 2 ^ s) :
    a ||| (b <<< s) = a + b * 2 ^ s := by
  apply Nat.eq_of_testBit_eq
  intro i
  rw [Nat.testBit_lor, Nat.testBit_shiftLeft]
  rcases Nat.lt_or_ge i s with his | his
  · have h1 : decide (i ≥ s) = false := by
      simp only [decide_eq_false_iff_not]; omega
    rw [h1, Bool.false_and, Bool.or_false,
      Nat.testBit_to_div_mod, Nat.testBit_to_div_mod]
    have hsplit : b * 2 ^ s = b * 2 ^ (s - i) * 2 ^ i := by
      rw [Nat.mul_assoc, ← Nat.pow_add]
      congr 2
      omega
    have hdiv : (a + b * 2 ^ s) / 2 ^ i = a / 2 ^ i + b * 2 ^ (s - i) := by
      rw [hsplit, Nat.add_mul_div_right _ _ (Nat.two_pow_pos i)]
    rw [hdiv]
    have heven : 2 ∣ b * 2 ^ (s - i) := by
      have : b * 2 ^ (s - i) = b * 2 ^ (s - i - 1) * 2 := by
        rw [Nat.mul_assoc, ← Nat.pow_succ]
        congr 2
        omega
      exact ⟨b * 2 ^ (s - i - 1), by omega⟩
    rcases heven with ⟨c, hc⟩
    rw [hc]
    simp only [decide_eq_decide]
    omega
  · have h1 : decide (i ≥ s) = true := by
      simp only [decide_eq_true_eq]; omega
    have ha : a.testBit i = false := by
      apply Nat.testBit_lt_two_pow
      exact Nat.lt_of_lt_of_le h (Nat.pow_le_pow_right (by norm_num) his)
    rw [h1, Bool.true_and, ha, Bool.false_or,
      Nat.testBit_to_div_mod, Nat.testBit_to_div_mod]
    have hpow : 2 ^ i = 2 ^ s * 2 ^ (i - s) := by
      rw [← Nat.pow_add]
      congr 1
      omega
    have hdiv : (a + b * 2 ^ s) / 2 ^ i = b / 2 ^ (i - s) := by
      rw [hpow, ← Nat.div_div_eq_div_mul]
      have : (a + b * 2 ^ s) / 2 ^ s = b := by
        rw [Nat.mul_comm, Nat.add_mul_div_left _ _ (Nat.two_pow_pos s),
          Nat.div_eq_of_lt h, Nat.zero_add]
      rw [this]
    rw [hdiv]

theorem and_127_eq_mod (n : Nat) : n &&& 127 = n % 128 := by
  have h : n &&& 2 ^ 7 - 1 = n % 2 ^ 7 := Nat.and_pow_two_sub_one_eq_mod n 7
  norm_num at h
  exact h

/-- The byte-level facts the codec proofs need, settled by enumeration
over the 128 possible low-byte values. -/
theorem byte_facts : ∀ x < 128, (x + 128) &&& 128 = 128 ∧
    (x + 128) &&& 127 = x ∧ x ||| 128 = x + 128 ∧
    x &&& 128 = 0 ∧ x &&& 127 = x := by decide

theorem writeLength_small {n : Nat} (h : n >>> 7 = 0) :
    writeLength n = [n &&& 127] := by
  rw [writeLength]
  simp [h]

theorem writeLength_big {n : Nat} (h : ¬ n >>> 7 = 0) :
    writeLength n = ((n &&& 127) ||| 128) :: writeLength (n >>> 7) := by
  rw [writeLength]
  simp [h]

theorem shiftRight7_eq_div (n : Nat) : n >>> 7 = n / 128 := by
  have h := Nat.shiftRight_eq_div_pow n 7
  norm_num at h
  exact h

/-- Decoding the bytes of `writeLength n` with accumulator `acc` and
shift `s` (where `acc` fits below bit `s`) yields `acc + n * 2 ^ s`
and consumes exactly the encoded length. -/
theorem readLengthAux_writeLength (n : Nat) :
    ∀ acc shift, acc < 2 ^ shift →
      readLengthAux (writeLength n) acc shift =
        some (acc + n * 2 ^ shift, (writeLength n).length) := by
  induction n using Nat.strong_induction_on with
  | _ n ih =>
    intro acc shift hacc
    by_cases h : n >>> 7 = 0
    · have hn : n < 128 := by
        rw [shiftRight7_eq_div] at h
        omega
      have hb : n &&& 127 = n := (byte_facts n hn).2.2.2.2
      have hz : n &&& 128 = 0 := (byte_facts n hn).2.2.2.1
      rw [writeLength_small h, hb]
      simp only [readLengthAux, List.length_singleton, hb, hz, if_pos rfl]
      rw [lor_shiftLeft_eq_add _ _ _ hacc]
      simp
    · have hn : 128 ≤ n := by
        rw [shiftRight7_eq_div] at h
        omega
      have hmlt : n % 128 < 128 := Nat.mod_lt _ (by norm_num)
      have hmod : n &&& 127 = n % 128 := and_127_eq_mod n
      have hlor : n % 128 ||| 128 = n % 128 + 128 := (byte_facts _ hmlt).2.2.1
      have hb127 : (n % 128 + 128) &&& 127 = n % 128 := (byte_facts _ hmlt).2.1
      have hb128 : (n % 128 + 128) &&& 128 = 128 := (byte_facts _ hmlt).1
      rw [writeLength_big h]
      simp only [readLengthAux, List.length_cons, hmod, hlor, hb127, hb128,
        if_neg (by norm_num : ¬ (128 : Nat) = 0)]
      rw [lor_shiftLeft_eq_add _ _ _ hacc]
      have hrec : n >>> 7 < n := by
        rw [shiftRight7_eq_div]
        exact Nat.div_lt_self (by omega) (by norm_num)
      have hacc' : acc + n % 128 * 2 ^ shift < 2 ^ (shift + 7) := by
        have hp : 2 ^ (shift + 7) = 2 ^ shift * 128 := by
          rw [Nat.pow_add]
        have h2 : n % 128 * 2 ^ shift ≤ 127 * 2 ^ shift :=
          Nat.mul_le_mul_right _ (by omega)
        omega
      rw [ih (n >>> 7) hrec _ _ hacc', Option.map_some']
      have harith : acc + n % 128 * 2 ^ shift + n >>> 7 * 2 ^ (shift + 7)
          = acc + n * 2 ^ shift := by
        have hp : 2 ^ (shift + 7) = 2 ^ shift * 128 := by
          rw [Nat.pow_add]
        have hsum : n % 128 + 128 * (n / 128) = n := Nat.mod_add_div n 128
        rw [shiftRight7_eq_div, hp]
        calc acc + n % 128 * 2 ^ shift + n / 128 * (2 ^ shift * 128)
            = acc + (n % 128 + 128 * (n / 128)) * 2 ^ shift := by ring
          _ = acc + n * 2 ^ shift := by rw [hsum]
      rw [harith]

/-! ### Reply decoder: `_processCompleteResponse` (client.js lines 182-233) -/

/-- JavaScript `String.prototype.startsWith(pre)`, modeled on the
character sequence of the string. -/
def jsStartsWith (w pre : String) : Bool := pre.data.isPrefixOf w.data

/-- JavaScript object assignment `item[key] = value` on a plain object:
overwrite in place when the key exists, else append (insertion order). -/
def objSet (m : List (String × String)) (k v : String) :
    List (String × String) :=
  if m.any (fun p => p.1 = k) then
    m.map (fun p => if p.1 = k then (k, v) else p)
  else m ++ [(k, v)]

/-- `word.indexOf("=", 1)`: position of the first `'='` at index ≥ 1
of the character list, or `none`. -/
def indexOfEqFrom1 (cs : List Char) : Option Nat :=
  match cs with
  | [] => none
  | _ :: rest =>
    match rest.findIdx? (fun c => c = '=') with
    | some i => some (i + 1)
    | none => none

/-- The inner loop of the `!re` branch: fold the attribute words of one
sentence into a JavaScript object.  A word is used only when it starts
with `'='` and contains a second `'='`; the key is the text between the
two and the value everything after the second (which may itself contain
`'='`). -/
def parseReItem (words : List String) : List (String × String) :=
  words.foldl
    (fun item word =>
      if jsStartsWith word "=" then
        match indexOfEqFrom1 word.data with
        | some p =>
          let key := String.mk ((word.data.drop 1).take (p - 1))
          let value := String.mk (word.data.drop (p + 1))
          objSet item key value
        | none => item
      else item)
    []

/-- The `!trap` scan of `_processCompleteResponse`: the error is taken
from the first sentence whose first word is `"!trap"`; its value is the
text after `"=message="` in the first word with that prefix, or the
literal `"Unknown error"` when no such word exists. -/
def firstTrapError : List (List String) → Option String
  | [] => none
  | sentence :: rest =>
    if sentence.head? = some "!trap" then
      match sentence.find? (fun w => jsStartsWith w "=message=") with
      | some w => some (String.mk (w.data.drop 9))
      | none => some "Unknown error"
    else firstTrapError rest

/-- The `!re` conversion of `_processCompleteResponse`: each sentence
whose first word is `"!re"` contributes one object built from its
remaining words; objects with zero keys are dropped; sentence order is
preserved. -/
def extractData (sentences : List (List String)) :
    List (List (String × String)) :=
  sentences.foldl
    (fun data sentence =>
      if sentence.head? = some "!re" then
        let item := parseReItem (sentence.drop 1)
        if item.length > 0 then data ++ [item] else data
      else data)
    []

/-- The decoded reply `{error, data, raw}` handed to the pending
callback. -/
structure Response where
  error : Option String
  data : List (List (String × String))
  raw : List (List String)
deriving Repr, DecidableEq

/-- The pure part of `_processCompleteResponse`: decode the accumulated
sentences into the `{error, data, raw}` object. -/
def decodeReply (sentences : List (List String)) : Response :=
  { error := firstTrapError sentences
    data := extractData sentences
    raw := sentences }

/-- Spec-side selector for one sentence of a reply: an `!re` sentence
contributes its parsed attribute mapping when non-empty; everything
else contributes nothing. -/
def reSelect (sentence : List String) : Option (List (String × String)) :=
  if sentence.head? = some "!re" then
    let item := parseReItem (sentence.drop 1)
    if item.length > 0 then some item else none
  else none

theorem extractData_go_acc (sentences : List (List String)) :
    ∀ acc : List (List (String × String)),
      sentences.foldl
        (fun data sentence =>
          if sentence.head? = some "!re" then
            let item := parseReItem (sentence.drop 1)
            if item.length > 0 then data ++ [item] else data
          else data) acc
      = acc ++ sentences.filterMap reSelect := by
  induction sentences with
  | nil => intro acc; simp
  | cons t rest ih =>
    intro acc
    simp only [List.foldl_cons, List.filterMap_cons]
    by_cases ht : t.head? = some "!re"
    · by_cases hi : (parseReItem (t.drop 1)).length > 0
      · simp only [ht, if_pos rfl, hi, if_pos hi, reSelect, ih]
        simp [List.append_assoc]
      · simp only [ht, if_pos rfl, hi, if_neg hi, reSelect, ih]
        simp [hi]
    · simp only [ht, if_neg ht, reSelect, ih]
      simp [ht]

/-- The message extraction of the `!trap` branch: the text after
`"=message="` in the first word carrying that prefix, else the
generic `"Unknown error"`. -/
def trapMessage (sentence : List String) : String :=
  match sentence.find? (fun w => jsStartsWith w "=message=") with
  | some w => String.mk (w.data.drop 9)
  | none => "Unknown error"

theorem firstTrapError_eq_find (sentences : List (List String)) :
    firstTrapError sentences =
      (sentences.find? (fun t => t.head? = some "!trap")).map trapMessage := by
  induction sentences with
  | nil => simp [firstTrapError]
  | cons t rest ih =>
    by_cases ht : t.head? = some "!trap"
    · simp only [firstTrapError, if_pos ht, List.find?_cons,
        decide_eq_true_eq, ht]
      cases hfind : List.find? (fun w => jsStartsWith w "=message=") t <;>
        simp [trapMessage, hfind, ht]
    · simp only [firstTrapError, if_neg ht, List.find?_cons]
      have hd : (decide (t.head? = some "!trap")) = false := by
        simp [ht]
      rw [hd, ih]

/-- C7: every `!re` sentence of a completed reply is decoded into one
mapping (key between the leading `'='` and the next, value the
remainder), attribute words without a second `'='` are skipped, empty
mappings are discarded, mappings keep sentence order, and the reply
`["!re","=name=ether1","=type=ether"], ["!re","=name=ether2"],
["!done"]` decodes to data
`[{name: ether1, type: ether}, {name: ether2}]` with error `null`. -/
theorem c7_re_sentence_decoding :
    (∀ sentences : List (List String),
      extractData sentences = sentences.filterMap reSelect) ∧
    decodeReply [["!re", "=name=ether1", "=type=ether"],
        ["!re", "=name=ether2"], ["!done"]] =
      { error := none
        data := [[("name", "ether1"), ("type", "ether")], [("name", "ether2")]]
        raw := [["!re", "=name=ether1", "=type=ether"],
          ["!re", "=name=ether2"], ["!done"]] } := by
  constructor
  · intro sentences
    simpa [extractData] using extractData_go_acc sentences []
  · decide

/-- C8: the error of a completed reply is taken from the first `!trap`
sentence only — the value of its `=message=` word when present, the
literal `"Unknown error"` otherwise — and the reply
`["!trap","=message=no such item"], ["!done"]` decodes to data `[]`
and error `"no such item"`. -/
theorem c8_trap_error_extraction :
    (∀ sentences : List (List String),
      firstTrapError sentences =
        (sentences.find? (fun t => t.head? = some "!trap")).map trapMessage) ∧
    decodeReply [["!trap", "=message=no such item"], ["!done"]] =
      { error := some "no such item"
        data := []
        raw := [["!trap", "=message=no such item"], ["!done"]] } := by
  exact ⟨firstTrapError_eq_find, by decide⟩

/-! ### Word framer: `_encodeWord` / `_sendCommand` (client.js 274-289) -/

/-- `Buffer.from(word, "utf8")`: the UTF-8 bytes of a word. -/
def utf8Bytes (s : String) : List Nat :=
  (s.data.flatMap String.utf8EncodeChar).map (fun b => b.toNat)

/-- `_encodeWord(word)`: varint byte length followed by the UTF-8
bytes. -/
def encodeWord (w : String) : List Nat :=
  writeLength (utf8Bytes w).length ++ utf8Bytes w

/-- The bytes `_sendCommand` writes to the socket for one command:
every word encoded, then the zero-length end-of-sentence marker. -/
def sentenceBytes (words : List String) : List Nat :=
  (words.map encodeWord).flatten ++ writeLength 0

/-! ### `send` (client.js lines 106-124) -/

/-- The connection state touched by `send` and the socket handlers:
the `connected` flag set by a successful login and cleared on close,
the accumulated reply sentences, and whether a pending request
callback is registered (`currentRequest !== null`). -/
structure ConnState where
  connected : Bool
  sentences : List (List String)
  currentRequest : Bool
deriving Repr, DecidableEq

/-- Everything observable about one `send(words)` call: the connection
state afterwards, the immediate rejection of the returned promise (if
any), and the byte strings written to the socket. -/
structure SendOutcome where
  state : ConnState
  rejected : Option String
  writes : List (List Nat)
deriving Repr, DecidableEq

/-- `send(words)`: reject `"Not connected"` immediately when the
`connected` flag is down (before touching any state), otherwise clear
`sentences`, register the callback (`_sendCommand`) and write the
encoded sentence. -/
def send (st : ConnState) (words : List String) : SendOutcome :=
  if st.connected = false then ⟨st, some "Not connected", []⟩
  else ⟨{ st with sentences := [], currentRequest := true }, none,
    [sentenceBytes words]⟩

/-! ### `_processCompleteResponse` as a state transformer -/

/-- `_processCompleteResponse()`: when no request is pending it returns
early leaving every field intact; otherwise it nulls the pending slot,
clears the sentence buffer, and only then invokes the callback with the
decoded reply — so the returned state is the one the callback observes.
The second component lists the callback invocations made. -/
def processCompleteResponse (st : ConnState) :
    ConnState × List Response :=
  if st.currentRequest = false then (st, [])
  else ({ connected := st.connected, sentences := [], currentRequest := false },
    [decodeReply st.sentences])

/-! ### `_login` (client.js lines 75-104) -/

/-- Everything observable about one run of the login handshake: how
`connect()`'s promise settles, the `connected` flag afterwards, the
events emitted, and the command sentences sent. -/
structure LoginOutcome where
  result : Except String Unit
  connectedAfter : Bool
  events : List String
  commands : List (List String)
deriving Repr

/-- `_login()` as a function of the two round replies.  Round one sends
`["/login"]`; a reply error rejects.  Round two sends
`["/login", "=name=<user>", "=password=<pass>"]`; a reply error rejects,
otherwise `connected` is set, `"connected"` is emitted and the promise
resolves.  The `connected` flag is `false` from the constructor until
the success branch runs, and nothing else sets it. -/
def loginRun (username password : String) (r1 r2 : Response) :
    LoginOutcome :=
  let round1 := ["/login"]
  let round2 := ["/login", "=name=" ++ username, "=password=" ++ password]
  match r1.error with
  | some e => ⟨Except.error e, false, [], [round1]⟩
  | none =>
    match r2.error with
    | some e => ⟨Except.error e, false, [], [round1, round2]⟩
    | none => ⟨Except.ok (), true, ["connected"], [round1, round2]⟩

/-! ### Constructor defaults and `connect()` port selection
(client.js lines 6-21 and 38-49) -/

/-- JavaScript `a || d` for numbers: `undefined` and `0` are falsy. -/
def jsNumOr (n d : Nat) : Nat := if n = 0 then d else n

/-- JavaScript `options.x || d` for an optional number. -/
def jsOptNumOr (v : Option Nat) (d : Nat) : Nat :=
  match v with
  | none => d
  | some n => jsNumOr n d

/-- JavaScript `options.x || d` for an optional string: `undefined`
and the empty string are falsy. -/
def jsOptStrOr (v : Option String) (d : String) : String :=
  match v with
  | none => d
  | some s => if s = "" then d else s

/-- The options record accepted by the constructor; `none` models an
absent key. -/
structure Options where
  host : Option String := none
  port : Option Nat := none
  username : Option String := none
  password : Option String := none
  timeout : Option Nat := none
  tls : Option Bool := none
deriving Repr, DecidableEq

/-- The configuration fields set by the constructor. -/
structure Client where
  host : String
  port : Nat
  username : String
  password : String
  timeout : Nat
  tls : Bool
deriving Repr, DecidableEq

/-- The constructor: `this.port = options.port || 8728`, etc.;
`options.tls || false` is `getD false`. -/
def mkClient (o : Options) : Client :=
  { host := jsOptStrOr o.host "192.168.88.1"
    port := jsOptNumOr o.port 8728
    username := jsOptStrOr o.username "admin"
    password := jsOptStrOr o.password ""
    timeout := jsOptNumOr o.timeout 10000
    tls := o.tls.getD false }

/-- The port handed to the socket in `connect()`:
`this.port || 8729` in the TLS branch, `this.port || 8728` in the
plain branch. -/
def connectPort (c : Client) : Nat :=
  if c.tls then jsNumOr c.port 8729 else jsNumOr c.port 8728

/-! ### Socket `error` and `close` handlers (client.js lines 62-71) -/

/-- The primitive effects a socket event handler can perform. -/
inductive HandlerAction where
  | clearConnectTimeout
  | emitEvent (name : String)
  | settleConnectPromise
  | invokePendingCallback
deriving Repr, DecidableEq

/-- The `error` handler: `clearTimeout(timeoutId); this.emit("error",
err); reject(err)` — the `reject` settles only the promise returned by
`connect()`.  It never touches `currentRequest` or the pending
command's promise. -/
def onErrorActions : List HandlerAction :=
  [HandlerAction.clearConnectTimeout, HandlerAction.emitEvent "error",
    HandlerAction.settleConnectPromise]

/-- State change of the `error` handler: none. -/
def onErrorState (s : ConnState) : ConnState := s

/-- The `close` handler: `this.connected = false; this.emit("close")`. -/
def onCloseActions : List HandlerAction :=
  [HandlerAction.emitEvent "close"]

/-- State change of the `close` handler. -/
def onCloseState (s : ConnState) : ConnState :=
  { s with connected := false }

/-! ### Sentence assembler: `_parseResponse` (client.js lines 141-180) -/

/-- A word on the wire, as its byte sequence. -/
abbrev ByteWord := List Nat

/-- A sentence: the words accumulated between zero-length markers. -/
abbrev ByteSentence := List ByteWord

/-- The mutable fields `_parseResponse` works on: the receive buffer,
the accumulated sentences, the sentence under construction
(`undefined` before first use — `none`), and whether a request
callback is pending. -/
structure ParseState where
  buffer : List Nat
  sentences : List ByteSentence
  currentSentence : Option ByteSentence
  currentRequest : Bool
deriving Repr, DecidableEq

/-- The UTF-8 bytes of the tag `"!done"`. -/
def doneWordBytes : ByteWord := [33, 100, 111, 110, 101]

/-- `lastSentence && lastSentence[0] === "!done"`. -/
def lastIsDone (ss : List ByteSentence) : Bool :=
  match ss.getLast? with
  | some s => s.head? == some doneWordBytes
  | none => false

theorem readLengthAux_consumed :
    ∀ (buf : List Nat) (acc shift v k : Nat),
      readLengthAux buf acc shift = some (v, k) →
      1 ≤ k ∧ k ≤ buf.length := by
  intro buf
  induction buf with
  | nil =>
    intro acc shift v k h
    simp [readLengthAux] at h
  | cons b rest ih =>
    intro acc shift v k h
    simp only [readLengthAux] at h
    split at h
    · obtain ⟨-, rfl⟩ := Prod.mk.injEq .. ▸ Option.some.injEq .. ▸ h
      simp
    · cases hr : readLengthAux rest (acc ||| ((b &&& 127) <<< shift))
          (shift + 7) with
      | none => rw [hr] at h; simp at h
      | some vk =>
        rw [hr] at h
        simp only [Option.map_some'] at h
        obtain ⟨v', k'⟩ := vk
        obtain ⟨-, rfl⟩ := Prod.mk.injEq .. ▸ Option.some.injEq .. ▸ h
        have := ih (acc ||| ((b &&& 127) <<< shift)) (shift + 7) v' k'
          (by simpa using hr)
        simp only [List.length_cons]
        omega

theorem readLength_consumed {buf : List Nat} {v k : Nat}
    (h : readLength buf = some (v, k)) : 1 ≤ k ∧ k ≤ buf.length :=
  readLengthAux_consumed buf 0 0 v k h

/-- The `while` loop of `_parseResponse`, as a function of the state,
accumulating into `out` the sentence runs handed to
`_processCompleteResponse` while a request was pending (each entry is
the `raw` run of one dispatched reply).  Branches, in source order:
stop when the buffer is empty or `_readLength` returns `null`
(consuming nothing); on a zero length close the current sentence, keep
it when non-empty, and when the run now ends in a `"!done"` sentence
dispatch it (clearing `sentences` and the pending slot) — or leave the
run in place when no request is pending; on a non-zero length, stop if
the remaining buffer is shorter than the word — NOTE: `_readLength`
has already sliced the length prefix off the buffer at this point —
else take the word bytes and append to the current sentence.

The `fuel` argument only bounds the iteration count so the recursion
is structural; every iteration consumes at least one buffer byte, so
any fuel exceeding the buffer length gives the loop's exact behaviour
(`parseLoop_fuel_irrelevant` below). -/
def parseLoop : Nat → ParseState → List (List ByteSentence) →
    ParseState × List (List ByteSentence)
  | 0, st, out => (st, out)
  | fuel + 1, st, out =>
    match st.buffer with
    | [] => (st, out)
    | _ :: _ =>
      match readLength st.buffer with
      | none => (st, out)
      | some (len, k) =>
        if len = 0 then
          let cur := st.currentSentence.getD []
          let sentences' :=
            if cur.length > 0 then st.sentences ++ [cur] else st.sentences
          if lastIsDone sentences' then
            if st.currentRequest then
              parseLoop fuel ⟨st.buffer.drop k, [], some [], false⟩
                (out ++ [sentences'])
            else
              parseLoop fuel
                ⟨st.buffer.drop k, sentences', some [], st.currentRequest⟩ out
          else
            parseLoop fuel
              ⟨st.buffer.drop k, sentences', some [], st.currentRequest⟩ out
        else
          if (st.buffer.drop k).length < len then
            ({ st with buffer := st.buffer.drop k }, out)
          else
            parseLoop fuel ⟨(st.buffer.drop k).drop len, st.sentences,
              some ((st.currentSentence.getD []) ++
                [(st.buffer.drop k).take len]),
              st.currentRequest⟩ out

/-- One-step unfolding of the loop at positive fuel. -/
theorem parseLoop_succ (fuel : Nat) (st : ParseState)
    (out : List (List ByteSentence)) :
    parseLoop (fuel + 1) st out =
      match st.buffer with
      | [] => (st, out)
      | _ :: _ =>
        match readLength st.buffer with
        | none => (st, out)
        | some (len, k) =>
          if len = 0 then
            let cur := st.currentSentence.getD []
            let sentences' :=
              if cur.length > 0 then st.sentences ++ [cur] else st.sentences
            if lastIsDone sentences' then
              if st.currentRequest then
                parseLoop fuel ⟨st.buffer.drop k, [], some [], false⟩
                  (out ++ [sentences'])
              else
                parseLoop fuel
                  ⟨st.buffer.drop k, sentences', some [], st.currentRequest⟩ out
            else
              parseLoop fuel
                ⟨st.buffer.drop k, sentences', some [], st.currentRequest⟩ out
          else
            if (st.buffer.drop k).length < len then
              ({ st with buffer := st.buffer.drop k }, out)
            else
              parseLoop fuel ⟨(st.buffer.drop k).drop len, st.sentences,
                some ((st.currentSentence.getD []) ++
                  [(st.buffer.drop k).take len]),
                st.currentRequest⟩ out := rfl

/-- Raising the fuel past the buffer length does not change the loop:
every iteration consumes at least one byte, so fuel equal to the
buffer length already runs the source's `while` loop to completion.
The fuel parameter is an artifact of the embedding, not of the
source. -/
theorem parseLoop_fuel_succ :
    ∀ (f : Nat) (st : ParseState) (out : List (List ByteSentence)),
      st.buffer.length ≤ f →
      parseLoop (f + 1) st out = parseLoop f st out := by
  intro f
  induction f using Nat.strong_induction_on with
  | _ f ih =>
    intro st out hle
    obtain ⟨buf, ss, cs, req⟩ := st
    cases hbuf : buf with
    | nil =>
      subst hbuf
      cases f with
      | zero => rfl
      | succ g => rfl
    | cons b rest =>
      subst hbuf
      simp only [List.length_cons] at hle
      obtain ⟨g, rfl⟩ : ∃ g, f = g + 1 := ⟨f - 1, by omega⟩
      rw [parseLoop_succ, parseLoop_succ]
      dsimp only
      cases hr : readLength (b :: rest) with
      | none => rfl
      | some vk =>
        obtain ⟨len, k⟩ := vk
        have hc := readLength_consumed hr
        simp only [List.length_cons] at hc
        have hrest : rest.length ≤ g := by omega
        have hsub : ∀ (st' : ParseState) out',
            st'.buffer = (b :: rest).drop k →
            parseLoop (g + 1) st' out' = parseLoop g st' out' := by
          intro st' out' hb'
          apply ih g (Nat.lt_succ_self g)
          rw [hb']
          simp only [List.length_drop, List.length_cons]
          omega
        have hsub2 : ∀ (st' : ParseState) out',
            st'.buffer = ((b :: rest).drop k).drop len →
            parseLoop (g + 1) st' out' = parseLoop g st' out' := by
          intro st' out' hb'
          apply ih g (Nat.lt_succ_self g)
          rw [hb']
          simp only [List.length_drop, List.length_cons]
          omega
        by_cases hlen : len = 0
        · subst hlen
          dsimp only
          repeat' split
          all_goals first
            | rfl
            | (apply hsub; rfl)
        · simp only [if_neg hlen]
          split
          · rfl
          · apply hsub2
            rfl

/-- Fuel irrelevance in general form: any two sufficient fuels agree. -/
theorem parseLoop_fuel_ge (f g : Nat) (st : ParseState)
    (out : List (List ByteSentence))
    (hf : st.buffer.length ≤ f) (hg : st.buffer.length ≤ g) :
    parseLoop f st out = parseLoop g st out := by
  have step : ∀ d : Nat, parseLoop (st.buffer.length + d) st out =
      parseLoop st.buffer.length st out := by
    intro d
    induction d with
    | zero => rfl
    | succ e ihe =>
      rw [show st.buffer.length + (e + 1) = st.buffer.length + e + 1 from by
          omega,
        parseLoop_fuel_succ (st.buffer.length + e) st out (by omega), ihe]
  have hf' := step (f - st.buffer.length)
  have hg' := step (g - st.buffer.length)
  rw [show st.buffer.length + (f - st.buffer.length) = f by omega] at hf'
  rw [show st.buffer.length + (g - st.buffer.length) = g by omega] at hg'
  rw [hf', hg']

/-- `_parseResponse()`: run the loop with enough fuel for the whole
buffer. -/
def parseResponse (st : ParseState) : ParseState × List (List ByteSentence) :=
  parseLoop (st.buffer.length + 1) st []

/-- The socket `data` handler: append the chunk to the receive buffer,
then run `_parseResponse`. -/
def feedChunk (st : ParseState) (chunk : List Nat) :
    ParseState × List (List ByteSentence) :=
  parseResponse { st with buffer := st.buffer ++ chunk }

/-! ### Claim theorems -/

/-- C1: for every non-negative integer below the tested ceiling
(2^31, where JavaScript's 32-bit bitwise semantics and the `Nat` model
agree), decoding the varint encoding returns the integer together with
the number of encoded bytes. -/
theorem c1_varint_round_trip (n : Nat) (h : n < 2 ^ 31) :
    readLength (writeLength n) = some (n, (writeLength n).length) := by
  have h0 := readLengthAux_writeLength n 0 0 (by norm_num)
  simpa [readLength] using h0

theorem c1_varint_round_trip_witness :
    300 < 2 ^ 31 ∧ readLength (writeLength 300) = some (300, 2) := by
  refine ⟨by norm_num, ?_⟩
  have h := c1_varint_round_trip 300 (by norm_num)
  have hw : writeLength 300 = [172, 2] := by
    rw [writeLength_big (by decide), writeLength_small (by decide)]
    decide
  rw [hw] at h
  rw [hw]
  simpa using h

/-- C5: `send` on a connection whose `connected` flag is down (never
authenticated, or closed) rejects immediately with `"Not connected"`,
writes nothing to the socket, and leaves the connection state
unchanged. -/
theorem c5_send_not_connected (st : ConnState) (words : List String)
    (h : st.connected = false) :
    send st words = ⟨st, some "Not connected", []⟩ := by
  simp [send, h]

theorem c5_send_not_connected_witness :
    send ⟨false, [], false⟩ ["/interface/print"] =
      ⟨⟨false, [], false⟩, some "Not connected", []⟩ :=
  c5_send_not_connected ⟨false, [], false⟩ ["/interface/print"] rfl

/-- C6: in the two-round login handshake, when round one carries no
trap and the round-two reply decodes to an error (which happens
whenever it contains a `!trap` sentence — third conjunct), `connect()`
fails with that message, the `connected` flag stays down and no
`"connected"` notification is emitted; when neither round errors the
flag is set and `"connected"` is emitted. -/
theorem c6_login_second_round (username password : String)
    (s1 s2 : List (List String)) (m : String)
    (h1 : firstTrapError s1 = none) :
    (firstTrapError s2 = some m →
      loginRun username password (decodeReply s1) (decodeReply s2) =
        ⟨Except.error m, false, [],
          [["/login"],
            ["/login", "=name=" ++ username, "=password=" ++ password]]⟩) ∧
    (firstTrapError s2 = none →
      loginRun username password (decodeReply s1) (decodeReply s2) =
        ⟨Except.ok (), true, ["connected"],
          [["/login"],
            ["/login", "=name=" ++ username, "=password=" ++ password]]⟩) ∧
    (∀ t ∈ s2, t.head? = some "!trap" → (firstTrapError s2).isSome) := by
  refine ⟨?_, ?_, ?_⟩
  · intro h2
    simp [loginRun, decodeReply, h1, h2]
  · intro h2
    simp [loginRun, decodeReply, h1, h2]
  · intro t ht htrap
    clear h1
    induction s2 with
    | nil => simp at ht
    | cons s rest ih =>
      by_cases hs : s.head? = some "!trap"
      · simp only [firstTrapError, if_pos hs]
        cases hfind : List.find? (fun w => jsStartsWith w "=message=") s <;>
          simp
      · simp only [firstTrapError, if_neg hs]
        rcases List.mem_cons.mp ht with rfl | hmem
        · exact absurd htrap hs
        · exact ih hmem

theorem c6_login_second_round_witness :
    loginRun "admin" "" (decodeReply [["!done"]])
        (decodeReply [["!trap", "=message=cannot log in"], ["!done"]]) =
      ⟨Except.error "cannot log in", false, [],
        [["/login"], ["/login", "=name=admin", "=password="]]⟩ :=
  (c6_login_second_round "admin" "" [["!done"]]
    [["!trap", "=message=cannot log in"], ["!done"]] "cannot log in"
    (by decide)).1 (by decide)

/-- C9 counterexample: a client constructed with TLS enabled and no
port option connects to port 8728, not 8729 — the constructor has
already replaced the absent port with 8728, so the `|| 8729` fallback
in the TLS branch of `connect()` never fires. -/
theorem c9_tls_default_port_counterexample :
    (mkClient { tls := some true : Options }).tls = true ∧
    connectPort (mkClient { tls := some true : Options }) = 8728 ∧
    connectPort (mkClient { tls := some true : Options }) ≠ 8729 := by
  refine ⟨rfl, rfl, by decide⟩

/-- C9 amended: with no port option the connection is opened to port
8728 whether or not TLS is enabled; the 8729 fallback in the TLS
branch is unreachable because the constructor defaults the port
first. -/
theorem c9_default_port (o : Options) (h : o.port = none) :
    connectPort (mkClient o) = 8728 := by
  simp [connectPort, mkClient, jsOptNumOr, jsNumOr, h]

theorem c9_default_port_witness :
    connectPort (mkClient { tls := some true : Options }) = 8728 :=
  c9_default_port { tls := some true : Options } rfl

/-- C10: dispatching a completed reply nulls the pending-request slot
and empties the sentence buffer before the callback runs (the returned
state is the one in effect at the invocation), the callback is invoked
exactly once with the decoded reply, and a re-entrant dispatch from the
cleared state invokes nothing. -/
theorem c10_dispatch_clears_state (st : ConnState)
    (h : st.currentRequest = true) :
    processCompleteResponse st =
      (⟨st.connected, [], false⟩, [decodeReply st.sentences]) ∧
    (processCompleteResponse (processCompleteResponse st).1).2 = [] := by
  constructor
  · simp [processCompleteResponse, h]
  · simp [processCompleteResponse, h]

theorem c10_dispatch_clears_state_witness :
    processCompleteResponse ⟨true, [["!done"]], true⟩ =
      (⟨true, [], false⟩, [decodeReply [["!done"]]]) ∧
    (processCompleteResponse
      (processCompleteResponse ⟨true, [["!done"]], true⟩).1).2 = [] :=
  c10_dispatch_clears_state ⟨true, [["!done"]], true⟩ rfl

theorem sentenceBytes_done : sentenceBytes ["!done"] =
    [5, 33, 100, 111, 110, 101, 0] := by
  have hu : utf8Bytes "!done" = [33, 100, 111, 110, 101] := by decide
  have h5 : writeLength 5 = [5] := by
    rw [writeLength_small (by decide)]
    decide
  have h0 : writeLength 0 = [0] := by
    rw [writeLength_small (by decide)]
    decide
  simp [sentenceBytes, encodeWord, hu, h5, h0]

/-- C2 (refuting the claim): when the varint length decodes but fewer
bytes of word body remain, `_parseResponse` does NOT leave the buffer
unchanged — `_readLength` has already committed
`this.buffer = this.buffer.slice(idx)`, so the length prefix is
consumed and is never re-read.  Concretely: a buffer holding only the
length byte `5` is left empty (no word, no sentence produced), instead
of still holding `[5]`. -/
theorem c2_need_more_consumes_length_prefix :
    parseResponse ⟨[5], [], none, true⟩ = (⟨[], [], none, true⟩, []) ∧
    (parseResponse ⟨[5], [], none, true⟩).1.buffer ≠ [5] := by
  exact ⟨by decide, by decide⟩

/-- C3 (refuting the claim): chunk-boundary independence fails.  The
wire form of the reply consisting of the single sentence `["!done"]`
is `[5, 33, 100, 111, 110, 101, 0]` (first conjunct ties it to the
encoder).  Delivered whole, the assembler dispatches exactly that
reply; split after the length byte (offset 1), neither chunk
dispatches anything, and the stream is desynchronized: the first
chunk's parse consumed the length prefix, so the second chunk's first
body byte `33` is misread as a length and the buffer jams at
`[100, 111, 110, 101, 0]`. -/
theorem c3_chunk_split_changes_decoding :
    sentenceBytes ["!done"] = [5, 33, 100, 111, 110, 101, 0] ∧
    (feedChunk ⟨[], [], none, true⟩ [5, 33, 100, 111, 110, 101, 0]).2 =
      [[[doneWordBytes]]] ∧
    (feedChunk ⟨[], [], none, true⟩ [5]).2 = [] ∧
    (feedChunk (feedChunk ⟨[], [], none, true⟩ [5]).1
        [33, 100, 111, 110, 101, 0]).2 = [] ∧
    (feedChunk (feedChunk ⟨[], [], none, true⟩ [5]).1
        [33, 100, 111, 110, 101, 0]).1.buffer = [100, 111, 110, 101, 0] := by
  exact ⟨sentenceBytes_done, by decide, by decide, by decide, by decide⟩

/-- C4 (refuting the claim): the socket `error` handler settles only
`connect()`'s promise and the `close` handler only flips the
`connected` flag — neither invokes or rejects the pending command's
callback, and both leave the pending-request slot occupied, so a
command in flight when the socket errors or closes is left unresolved
forever. -/
theorem c4_handlers_leave_pending_command :
    HandlerAction.invokePendingCallback ∉ onErrorActions ∧
    HandlerAction.invokePendingCallback ∉ onCloseActions ∧
    onErrorState ⟨true, [], true⟩ = ⟨true, [], true⟩ ∧
    (onErrorState ⟨true, [], true⟩).currentRequest = true ∧
    (onCloseState ⟨true, [], true⟩).currentRequest = true := by
  refine ⟨by decide, by decide, rfl, rfl, rfl⟩

end RosClient
